import Mathlib

/-!
Shallow embedding of the `image.extract` Ansible module
(`library/image.extract.py`): container-image path extraction with
union-filesystem-style layer shadowing, simple trailing `/*` globbing,
an existence-based idempotency skip, and symbolic owner/group
resolution.  Layers of the image are lists of tar members; the local
filesystem is a flat association of paths to nodes.
-/

namespace ImageExtract

/-- Kind of a tar archive member: `tarinfo.isfile()`, `tarinfo.isdir()`,
or anything else (symlink, device node, fifo, ...). -/
inductive MKind where
  | file
  | directory
  | other
deriving DecidableEq

/-- A tar archive member: its relative name, kind and byte content. -/
structure Member where
  name : String
  kind : MKind
  content : String
deriving DecidableEq

/-- Python `member.isdir()`. -/
def Member.isdir (m : Member) : Bool :=
  match m.kind with
  | MKind.directory => true
  | _ => false

/-- Python `member.isfile()`. -/
def Member.isfile (m : Member) : Bool :=
  match m.kind with
  | MKind.file => true
  | _ => false

/-- A node of the local filesystem. -/
inductive FSNode where
  | file (content : String)
  | dir
deriving DecidableEq

/-- The local filesystem, as a flat association of paths to nodes. -/
structure FS where
  entries : List (String × FSNode)
deriving DecidableEq

def FS.lookup (fs : FS) (p : String) : Option FSNode :=
  (fs.entries.find? (fun e => e.1 == p)).map (fun e => e.2)

/-- Python `os.path.isfile`. -/
def isfile (fs : FS) (p : String) : Bool :=
  match fs.lookup p with
  | some (FSNode.file _) => true
  | _ => false

/-- Python `os.path.isdir`. -/
def isdir (fs : FS) (p : String) : Bool :=
  match fs.lookup p with
  | some FSNode.dir => true
  | _ => false

/-- Overwriting write of a single node, which is what extracting a single
tar member to path `p` does. -/
def FS.write (fs : FS) (p : String) (node : FSNode) : FS :=
  FS.mk (fs.entries.filter (fun e => !(e.1 == p)) ++ [(p, node)])

/-- Python `s.startswith(pat)`. -/
def strStartsWith (s pat : String) : Bool := pat.data.isPrefixOf s.data

/-- Python `s.endswith(pat)`. -/
def strEndsWith (s pat : String) : Bool := pat.data.isSuffixOf s.data

/-- Python slicing `s[n:]`. -/
def strDrop (s : String) (n : Nat) : String := String.mk (s.data.drop n)

/-- Python slicing `s[:-n]`. -/
def strDropRight (s : String) (n : Nat) : String :=
  String.mk (s.data.take (s.data.length - n))

/-- Python `len(s)`. -/
def strLen (s : String) : Nat := s.data.length

/-- Python `'/' in s`. -/
def containsSlash (s : String) : Bool := s.data.contains '/'

/-- Python `s.split('/')` on the character list. -/
def splitOnSlash : List Char → List (List Char)
  | [] => [[]]
  | c :: rest =>
    if c = '/' then [] :: splitOnSlash rest
    else
      match splitOnSlash rest with
      | [] => [[c]]
      | h :: t => (c :: h) :: t

/-- Python `'/'.join(comps)` on character lists. -/
def joinWithSlash : List (List Char) → List Char
  | [] => []
  | [x] => x
  | x :: xs => x ++ '/' :: joinWithSlash xs

/-- One step of `posixpath.normpath` component processing: drop empty and
`.` components, resolve `..` against the accumulated components. -/
def normpathStep (initSlashes : Nat) (acc : List (List Char)) (comp : List Char) :
    List (List Char) :=
  if comp = [] ∨ comp = ['.'] then acc
  else if comp ≠ ['.', '.'] ∨ (initSlashes = 0 ∧ acc = []) ∨
      acc.getLast? = some ['.', '.'] then
    acc ++ [comp]
  else if acc = [] then acc
  else acc.dropLast

/-- Python `posixpath.normpath`. -/
def normpath (p : String) : String :=
  if p.data = [] then "."
  else
    let initSlashes : Nat :=
      if strStartsWith p "/" then
        if strStartsWith p "//" && !(strStartsWith p "///") then 2 else 1
      else 0
    let comps := splitOnSlash p.data
    let res := List.replicate initSlashes '/' ++
      joinWithSlash (comps.foldl (normpathStep initSlashes) [])
    if res = [] then "." else String.mk res

/-- Python `posixpath.dirname`: everything up to the last path separator,
with trailing separators stripped unless the head is all separators. -/
def dirname (p : String) : String :=
  let head := (p.data.reverse.dropWhile (fun c => !(c == '/'))).reverse
  if head = [] ∨ head.all (fun c => c == '/') then String.mk head
  else String.mk ((head.reverse.dropWhile (fun c => c == '/')).reverse)

/-- Python `posixpath.basename`: everything after the last path separator. -/
def basename (p : String) : String :=
  String.mk ((p.data.reverse.takeWhile (fun c => !(c == '/'))).reverse)

/-- Python `posixpath.join` for two components. -/
def joinPath (a b : String) : String :=
  if strStartsWith b "/" then b
  else if a = "" ∨ strEndsWith a "/" then a ++ b
  else a ++ "/" ++ b

/-- The failures the module can raise: each is surfaced through
`module.fail_json`, a raised `KeyError`, or — for `isADirectory` — the
`IsADirectoryError` that `tarfile.extractall` re-raises under its default
`errorlevel = 1` and that `run_module`'s blanket `except Exception`
turns into `fail_json`. -/
inductive ExtractErr where
  | invalidDestination (dest : String)
  | pathNotFound (src : String)
  | unknownOwner (owner : String)
  | unknownGroup (group : String)
  | isADirectory (path : String)
deriving DecidableEq

/-- The `subpath_len` computation of `dir_members`: length of `src` when
globbed, otherwise length of `dirname(normpath(src))`, plus one for the
separator when `src` contains one. -/
def subpathLenOf (src : String) (globbed : Bool) : Nat :=
  let n := if globbed then strLen src else strLen (dirname (normpath src))
  if containsSlash src then n + 1 else n

/-- The member filter of `dir_members`:
`member.name.startswith(src) and (member.isdir() or member.isfile())`. -/
def matchesSrc (src : String) (m : Member) : Bool :=
  strStartsWith m.name src && (m.isdir || m.isfile)

/-- The destination rewriting of `dir_members`: strip `subpath_len`
characters and, when a destination directory is given, join with it;
a non-directory destination replaces the member path wholesale. -/
def rewriteMember (dest : Option String) (fs : FS) (subpath_len : Nat)
    (m : Member) : Member :=
  match dest with
  | none => { m with name := strDrop m.name subpath_len }
  | some d =>
    if isdir fs d then { m with name := joinPath d (strDrop m.name subpath_len) }
    else { m with name := d }

/-- One loop iteration of `dir_members`: filter the member, validate the
destination (failing with `InvalidDestination` when a globbed or directory
member targets a non-directory destination), rewrite and append. -/
def dirMemberStep (src : String) (dest : Option String) (fs : FS) (globbed : Bool)
    (subpath_len : Nat) (acc : List Member) (member : Member) :
    Except ExtractErr (List Member) :=
  if matchesSrc src member then
    match dest with
    | none => Except.ok (acc ++ [rewriteMember none fs subpath_len member])
    | some d =>
      if (globbed || member.isdir) && !(isdir fs d) then
        Except.error (ExtractErr.invalidDestination d)
      else Except.ok (acc ++ [rewriteMember (some d) fs subpath_len member])
  else Except.ok acc

/-- The member-collection loop of `dir_members`, aborting at the first
failure (`module.fail_json` terminates the run in the source). -/
def collectMembers (src : String) (dest : Option String) (fs : FS) (globbed : Bool)
    (subpath_len : Nat) : List Member → List Member → Except ExtractErr (List Member)
  | acc, [] => Except.ok acc
  | acc, member :: rest =>
    match dirMemberStep src dest fs globbed subpath_len acc member with
    | Except.error e => Except.error e
    | Except.ok acc' => collectMembers src dest fs globbed subpath_len acc' rest

/-- The `dir_members` function of the source: collect the matching members
of a layer, rewritten to their destinations; when globbed, slice off the
first element of the list (`members[1:]`). -/
def dir_members (layer : List Member) (src : String) (dest : Option String)
    (fs : FS) (globbed : Bool) : Except ExtractErr (List Member) :=
  match collectMembers src dest fs globbed (subpathLenOf src globbed) [] layer with
  | Except.error e => Except.error e
  | Except.ok members =>
    if globbed then Except.ok (members.drop 1) else Except.ok members

/-- Extraction of a single (already rewritten) member onto the local
filesystem, as performed by `tarfile.extractall` with its default
`errorlevel = 1`.  A file member is written via `makefile`'s
`open(targetpath, "wb")`: this truncates and overwrites an existing
regular file, but raises `IsADirectoryError` when the target path is an
existing directory — the error is re-raised by `extractall`, passes the
`except KeyError` of `extract_path` untouched, and aborts the request.
A directory member is created by `makedir`, whose `FileExistsError` is
passed over, so an existing node at the target path — file or
directory — is left unchanged.  Only file and directory members ever
reach this point, since `dir_members` filters out every other kind. -/
def extractMember (fs : FS) (m : Member) : Except ExtractErr FS :=
  match m.kind with
  | MKind.file =>
    match fs.lookup m.name with
    | some FSNode.dir => Except.error (ExtractErr.isADirectory m.name)
    | _ => Except.ok (fs.write m.name (FSNode.file m.content))
  | MKind.directory =>
    match fs.lookup m.name with
    | some _ => Except.ok fs
    | none => Except.ok (fs.write m.name FSNode.dir)
  | MKind.other => Except.ok fs

/-- The `extractall` loop over the member list: members are extracted in
order, and the first OS error aborts the run (`errorlevel = 1`
re-raises it). -/
def extractAll (fs : FS) : List Member → Except ExtractErr FS
  | [] => Except.ok fs
  | m :: rest =>
    match extractMember fs m with
    | Except.error e => Except.error e
    | Except.ok fs' => extractAll fs' rest

/-- The layer-scanning loop of `extract_path`: the layer list is given
newest first (the source iterates `reversed(manifest['Layers'])`); the
first layer containing a member named exactly `src` is the hit layer
(`tarfile.getmember` raises `KeyError` otherwise and the loop continues);
the hit layer's matching members are extracted and their rewritten paths
returned; exhausting all layers raises the path-not-found `KeyError`. -/
def findExtract (fs : FS) (src : String) (dest : Option String) (globbed : Bool) :
    List (List Member) → Except ExtractErr (FS × List String)
  | [] => Except.error (ExtractErr.pathNotFound src)
  | layer :: rest =>
    if layer.any (fun m => m.name == src) then
      match dir_members layer src dest fs globbed with
      | Except.error e => Except.error e
      | Except.ok members_list =>
        match extractAll fs members_list with
        | Except.error e => Except.error e
        | Except.ok fs' => Except.ok (fs', members_list.map Member.name)
    else findExtract fs src dest globbed rest

/-- Whether `src` requests the simplified globbing (`src.endswith('/*')`). -/
def isGlobbed (src : String) : Bool := strEndsWith src "/*"

/-- The glob stripping of `extract_path` (`src = src[:-2]`). -/
def stripGlob (src : String) : String :=
  if isGlobbed src then strDropRight src 2 else src

/-- The path probed by the idempotency check of `extract_path`:
`basename(src)` when no destination is given, `join(dest, basename(src))`
when the destination is an existing directory, and `dest` itself
otherwise. -/
def computedDest (fs : FS) (src : String) (dest : Option String) : String :=
  match dest with
  | none => basename src
  | some d => if isdir fs d then joinPath d (basename src) else d

/-- The `dest_file_exists` computation of `extract_path`: does a regular
file already exist at the computed destination? -/
def destFileExists (fs : FS) (src : String) (dest : Option String) : Bool :=
  isfile fs (computedDest fs src dest)

/-- The `extract_path` function of the source.  `layers` is the manifest
layer list, oldest first.  A globbed `src` is stripped and forces
re-extraction; otherwise, without `force`, an existing regular file at the
computed destination short-circuits the whole request with an empty
result.  Otherwise the layers are scanned newest to oldest. -/
def extract_path (layers : List (List Member)) (fs : FS) (src : String)
    (dest : Option String) (force : Bool) : Except ExtractErr (FS × List String) :=
  let globbed := isGlobbed src
  let srcStr := stripGlob src
  let forceEff := if globbed then true else force
  let dest_file_exists := if globbed then false else destFileExists fs srcStr dest
  if !forceEff && dest_file_exists then Except.ok (fs, [])
  else findExtract fs srcStr dest globbed layers.reverse

/-- The local identity databases (`pwd` and `grp`): symbolic names to
numeric ids. -/
structure IdDB where
  passwd : List (String × Int)
  groups : List (String × Int)
deriving DecidableEq

/-- The owner resolution of `set_ownership`: the chown default `-1` when
no owner is given or the name is empty (Python truthiness), otherwise the
password-database lookup, failing on an unknown name. -/
def resolveUid (db : IdDB) (owner : Option String) : Except ExtractErr Int :=
  match owner with
  | none => Except.ok (-1)
  | some o =>
    if o = "" then Except.ok (-1)
    else
      match db.passwd.find? (fun e => e.1 == o) with
      | some e => Except.ok e.2
      | none => Except.error (ExtractErr.unknownOwner o)

/-- The group resolution of `set_ownership`, like `resolveUid`. -/
def resolveGid (db : IdDB) (group : Option String) : Except ExtractErr Int :=
  match group with
  | none => Except.ok (-1)
  | some g =>
    if g = "" then Except.ok (-1)
    else
      match db.groups.find? (fun e => e.1 == g) with
      | some e => Except.ok e.2
      | none => Except.error (ExtractErr.unknownGroup g)

/-- The `set_ownership` function of the source: no-op when both names are
absent; otherwise the owner and then the group are resolved (each failing
on an unknown name) before any path is touched, and then `chown` is
applied to every listed path.  The returned list records the `chown`
calls made. -/
def set_ownership (db : IdDB) (paths : List String) (owner group : Option String) :
    Except ExtractErr (List (String × Int × Int)) :=
  if owner = none ∧ group = none then Except.ok []
  else
    match resolveUid db owner with
    | Except.error e => Except.error e
    | Except.ok uid =>
      match resolveGid db group with
      | Except.error e => Except.error e
      | Except.ok gid => Except.ok (paths.map (fun p => (p, uid, gid)))

/-- One iteration of the per-path loop of `run_module`: extract, then
apply ownership to the extracted paths (lines 451-455 of the source). -/
def process_path (layers : List (List Member)) (db : IdDB) (fs : FS)
    (src : String) (dest : Option String) (owner group : Option String)
    (force : Bool) : Except ExtractErr (FS × List String) :=
  match extract_path layers fs src dest force with
  | Except.error e => Except.error e
  | Except.ok (fs', extracted) =>
    match set_ownership db extracted owner group with
    | Except.error e => Except.error e
    | Except.ok _ => Except.ok (fs', extracted)

/-- Modelled from the words of claim C10: the ordered list of matching
file/directory members of the hit layer, rewritten to their destination
paths, with its first element removed.  To be compared with what
`dir_members` produces for a globbed request. -/
def globClaimList (layer : List Member) (src : String) (dest : Option String)
    (fs : FS) : List Member :=
  ((layer.filter (matchesSrc src)).map
    (rewriteMember dest fs (subpathLenOf src true))).drop 1

/-- A layer containing no member named `src` never reports a hit. -/
theorem any_name_eq_false_of {layer : List Member} {src : String}
    (h : ∀ m ∈ layer, m.name ≠ src) :
    (layer.any (fun m => m.name == src)) = false := by
  simp only [List.any_eq_false, beq_iff_eq]
  exact h

/-- A layer containing a member named `src` reports a hit. -/
theorem any_name_eq_true_of {layer : List Member} {src : String}
    (h : ∃ m ∈ layer, m.name = src) :
    (layer.any (fun m => m.name == src)) = true := by
  simp only [List.any_eq_true, beq_iff_eq]
  exact h

/-- Scanning layers none of which contains the target fails with the
path-not-found error. -/
theorem findExtract_no_hit (fs : FS) (src : String) (dest : Option String)
    (g : Bool) (ls : List (List Member))
    (h : ∀ l ∈ ls, ∀ m ∈ l, m.name ≠ src) :
    findExtract fs src dest g ls = Except.error (ExtractErr.pathNotFound src) := by
  induction ls with
  | nil => rfl
  | cons layer rest ih =>
    simp only [findExtract, any_name_eq_false_of (h layer (List.mem_cons_self _ _)),
      Bool.false_eq_true, if_false]
    exact ih (fun l hl m hm => h l (List.mem_cons_of_mem _ hl) m hm)

/-- Layers without the target in front of the scan list are skipped. -/
theorem findExtract_append_no_hit (fs : FS) (src : String) (dest : Option String)
    (g : Bool) (ls rest : List (List Member))
    (h : ∀ l ∈ ls, ∀ m ∈ l, m.name ≠ src) :
    findExtract fs src dest g (ls ++ rest) = findExtract fs src dest g rest := by
  induction ls with
  | nil => rfl
  | cons layer tl ih =>
    rw [List.cons_append]
    simp only [findExtract, any_name_eq_false_of (h layer (List.mem_cons_self _ _)),
      Bool.false_eq_true, if_false]
    exact ih (fun l hl m hm => h l (List.mem_cons_of_mem _ hl) m hm)

/-- Once the front layer of the scan list contains the target, the layers
behind it are irrelevant. -/
theorem findExtract_cons_hit (fs : FS) (src : String) (dest : Option String)
    (g : Bool) (layer : List Member) (rest : List (List Member))
    (h : ∃ m ∈ layer, m.name = src) :
    findExtract fs src dest g (layer :: rest) = findExtract fs src dest g [layer] := by
  simp only [findExtract, any_name_eq_true_of h]
  simp

/-- The collection loop leaves the accumulator untouched when no member of
the layer passes the filter. -/
theorem collectMembers_no_match (src : String) (dest : Option String) (fs : FS)
    (globbed : Bool) (subpath_len : Nat) (layer : List Member)
    (h : ∀ m ∈ layer, matchesSrc src m = false) :
    ∀ acc, collectMembers src dest fs globbed subpath_len acc layer = Except.ok acc := by
  induction layer with
  | nil => intro acc; rfl
  | cons m rest ih =>
    intro acc
    have hm : matchesSrc src m = false := h m (List.mem_cons_self _ _)
    simp only [collectMembers, dirMemberStep, hm, Bool.false_eq_true, if_false]
    exact ih (fun x hx => h x (List.mem_cons_of_mem _ hx)) acc

/-- When the destination is absent or an existing directory, the
collection loop never fails and appends exactly the rewritten matching
members, in order. -/
theorem collectMembers_ok (src : String) (dest : Option String) (fs : FS)
    (globbed : Bool) (subpath_len : Nat)
    (hdest : dest = none ∨ ∃ d, dest = some d ∧ isdir fs d = true) :
    ∀ (layer : List Member) (acc : List Member),
      collectMembers src dest fs globbed subpath_len acc layer =
        Except.ok (acc ++ (layer.filter (matchesSrc src)).map
          (rewriteMember dest fs subpath_len)) := by
  intro layer
  induction layer with
  | nil => intro acc; simp [collectMembers]
  | cons m rest ih =>
    intro acc
    by_cases hm : matchesSrc src m = true
    · have hstep : dirMemberStep src dest fs globbed subpath_len acc m =
          Except.ok (acc ++ [rewriteMember dest fs subpath_len m]) := by
        rcases hdest with h | ⟨d, hd, hdir⟩
        · subst h; simp [dirMemberStep, hm]
        · subst hd; simp [dirMemberStep, hm, hdir]
      simp only [collectMembers, hstep]
      rw [ih]
      simp [hm, List.filter_cons, List.append_assoc]
    · have hm' : matchesSrc src m = false := by simpa using hm
      simp only [collectMembers, dirMemberStep, hm', Bool.false_eq_true, if_false]
      rw [ih]
      simp [List.filter_cons, hm']

/-- When the destination is not an existing directory and some member of
the layer passes the filter with the globbed-or-directory condition, the
collection loop aborts with the invalid-destination failure. -/
theorem collectMembers_error (src d : String) (fs : FS) (globbed : Bool)
    (subpath_len : Nat) (hdir : isdir fs d = false) :
    ∀ (layer : List Member) (acc : List Member),
      (∃ m ∈ layer, matchesSrc src m = true ∧ (globbed = true ∨ m.isdir = true)) →
      collectMembers src (some d) fs globbed subpath_len acc layer =
        Except.error (ExtractErr.invalidDestination d) := by
  intro layer
  induction layer with
  | nil =>
    intro acc h
    simp at h
  | cons m rest ih =>
    intro acc h
    by_cases htrig : matchesSrc src m = true ∧ (globbed = true ∨ m.isdir = true)
    · obtain ⟨h1, h2⟩ := htrig
      have hval : (globbed || m.isdir) = true := by
        rcases h2 with h2 | h2 <;> simp [h2]
      simp only [collectMembers, dirMemberStep, h1, if_true, hval, hdir,
        Bool.not_false, Bool.and_true, Bool.true_and, if_pos]
    · have hrest : ∃ m' ∈ rest, matchesSrc src m' = true ∧
          (globbed = true ∨ m'.isdir = true) := by
        obtain ⟨m', hm', hp⟩ := h
        rcases List.mem_cons.mp hm' with rfl | hm'
        · exact absurd hp htrig
        · exact ⟨m', hm', hp⟩
      by_cases hm : matchesSrc src m = true
      · have hval : (globbed || m.isdir) = false := by
          have hnot : ¬(globbed = true ∨ m.isdir = true) := fun hh => htrig ⟨hm, hh⟩
          push_neg at hnot
          simp [Bool.not_eq_true] at hnot
          simp [hnot.1, hnot.2]
        simp only [collectMembers, dirMemberStep, hm, if_true, hval,
          Bool.false_and, Bool.false_eq_true, if_false]
        exact ih _ hrest
      · have hm' : matchesSrc src m = false := by simpa using hm
        simp only [collectMembers, dirMemberStep, hm', Bool.false_eq_true, if_false]
        exact ih _ hrest

/-- The result of `dir_members` for a globbed request with a valid
destination: the rewritten matching members with the first one sliced
off. -/
theorem dir_members_ok_globbed (layer : List Member) (src : String)
    (dest : Option String) (fs : FS)
    (hdest : dest = none ∨ ∃ d, dest = some d ∧ isdir fs d = true) :
    dir_members layer src dest fs true =
      Except.ok (((layer.filter (matchesSrc src)).map
        (rewriteMember dest fs (subpathLenOf src true))).drop 1) := by
  unfold dir_members
  rw [collectMembers_ok src dest fs true (subpathLenOf src true) hdest layer []]
  simp

/-- Claim C1 (confirmed): layer shadowing.  With the manifest layer list
given oldest first, if the layer `hit` contains the (glob-stripped)
target and no layer newer than it does, the whole extraction behaves
exactly as if the image consisted of the `hit` layer alone: layers are
scanned strictly newest to oldest, the first layer containing the target
wins outright, and the older layers — in particular an older copy of the
same member with different content — never contribute anything. -/
theorem C1_layer_shadowing (older newer : List (List Member)) (hit : List Member)
    (fs : FS) (src : String) (dest : Option String) (force : Bool)
    (hnewer : ∀ l ∈ newer, ∀ m ∈ l, m.name ≠ stripGlob src)
    (hhit : ∃ m ∈ hit, m.name = stripGlob src) :
    extract_path (older ++ hit :: newer) fs src dest force =
      extract_path [hit] fs src dest force := by
  have hn : ∀ l ∈ newer.reverse, ∀ m ∈ l, m.name ≠ stripGlob src := by
    intro l hl
    exact hnewer l (List.mem_reverse.mp hl)
  have key : findExtract fs (stripGlob src) dest (isGlobbed src)
      ((older ++ hit :: newer).reverse) =
      findExtract fs (stripGlob src) dest (isGlobbed src) [hit] := by
    rw [List.reverse_append, List.reverse_cons, List.append_assoc,
      findExtract_append_no_hit fs (stripGlob src) dest (isGlobbed src)
        newer.reverse _ hn, List.singleton_append,
      findExtract_cons_hit fs (stripGlob src) dest (isGlobbed src) hit
        older.reverse hhit]
  simp only [extract_path]
  rw [key]
  simp

/-- Witness for C1: a two-layer image where both layers contain
`etc/motd`; the result equals the extraction from the image holding only
the newer layer. -/
theorem C1_layer_shadowing_witness :
    extract_path [[Member.mk "etc/motd" MKind.file "old"],
        [Member.mk "etc/motd" MKind.file "new"]]
      (FS.mk []) "etc/motd" none true =
      extract_path [[Member.mk "etc/motd" MKind.file "new"]]
        (FS.mk []) "etc/motd" none true :=
  C1_layer_shadowing [[Member.mk "etc/motd" MKind.file "old"]] []
    [Member.mk "etc/motd" MKind.file "new"] (FS.mk []) "etc/motd" none true
    (by intro l hl; cases hl) (by decide)

/-- Claim C2 counterexample: a file already exists at the computed
destination with content "OLD", while the archive member holds the
different content "NEW"; with `force = false` the request is nonetheless
skipped (no change, empty extracted list), so no checksum comparison is
performed and differing contents are NOT re-extracted, contrary to the
claim's "if the contents differ it re-extracts". -/
theorem C2_counterexample :
    extract_path [[Member.mk "os-release" MKind.file "NEW"]]
        (FS.mk [("os-release", FSNode.file "OLD")]) "os-release" none false =
      Except.ok (FS.mk [("os-release", FSNode.file "OLD")], []) ∧
      ("OLD" : String) ≠ "NEW" :=
  ⟨rfl, by decide⟩

/-- Claim C2 (amended): for a non-globbed request with `force = false`,
the idempotency decision is purely existence-based: the request is
skipped (no change, empty extracted list) exactly when a regular file
already exists at the computed destination, independently of any content
— no checksum is computed — and it proceeds to the layer scan otherwise. -/
theorem C2_skip_iff_dest_file_exists (layers : List (List Member)) (fs : FS)
    (src : String) (dest : Option String) (hng : isGlobbed src = false) :
    extract_path layers fs src dest false =
      (if destFileExists fs src dest = true then Except.ok (fs, [])
       else findExtract fs src dest false layers.reverse) := by
  have hs : stripGlob src = src := by simp [stripGlob, hng]
  simp [extract_path, hng, hs]

/-- Witness for C2's amended theorem at a concrete skipped request. -/
theorem C2_skip_iff_dest_file_exists_witness :
    extract_path [] (FS.mk [("a", FSNode.file "c")]) "a" none false =
      (if destFileExists (FS.mk [("a", FSNode.file "c")]) "a" none = true
       then Except.ok (FS.mk [("a", FSNode.file "c")], [])
       else findExtract (FS.mk [("a", FSNode.file "c")]) "a" none false []) :=
  C2_skip_iff_dest_file_exists [] (FS.mk [("a", FSNode.file "c")]) "a" none
    (by decide)

/-- Claim C3 counterexample: the image's only layer holds `dev/null` as a
member of kind `other` (e.g. a device node); requesting exactly that path
succeeds with an empty extracted list — the entry is silently filtered
out — instead of failing.  No `InvalidMemberKind` failure exists anywhere
in the code (the error type of the module has no such case). -/
theorem C3_counterexample :
    extract_path [[Member.mk "dev/null" MKind.other ""]] (FS.mk [])
        "dev/null" none false = Except.ok (FS.mk [], []) := rfl

/-- Claim C3 (amended): a directly requested archive entry whose kind is
neither file nor directory is silently skipped: the layer lookup still
hits, but `dir_members` filters the entry out, so the request succeeds
with no change and an empty extracted list (it does not fail). -/
theorem C3_other_kind_silently_skipped (layer : List Member) (fs : FS)
    (src : String) (dest : Option String) (force : Bool)
    (hng : isGlobbed src = false)
    (hhit : ∃ m ∈ layer, m.name = src)
    (hother : ∀ m ∈ layer, strStartsWith m.name src = true → m.kind = MKind.other) :
    extract_path [layer] fs src dest force = Except.ok (fs, []) := by
  have hs : stripGlob src = src := by simp [stripGlob, hng]
  have hmatch : ∀ m ∈ layer, matchesSrc src m = false := by
    intro m hm
    by_cases hsw : strStartsWith m.name src = true
    · have hk := hother m hm hsw
      simp [matchesSrc, Member.isdir, Member.isfile, hk]
    · have hsw' : strStartsWith m.name src = false := by simpa using hsw
      simp [matchesSrc, hsw']
  have hdm : dir_members layer src dest fs false = Except.ok [] := by
    unfold dir_members
    rw [collectMembers_no_match src dest fs false (subpathLenOf src false)
      layer hmatch []]
    simp
  have hfe : findExtract fs src dest false [layer] = Except.ok (fs, []) := by
    simp only [findExtract, any_name_eq_true_of hhit]
    simp [hdm, extractAll]
  simp only [extract_path, hng, hs]
  cases hc : destFileExists fs src dest <;> cases force <;> simp [hc, hfe]

/-- Witness for C3's amended theorem: a layer holding only a symlink-kind
member at the requested path. -/
theorem C3_other_kind_silently_skipped_witness :
    extract_path [[Member.mk "dev/log" MKind.other ""]] (FS.mk [])
        "dev/log" none false = Except.ok (FS.mk [], []) :=
  C3_other_kind_silently_skipped [Member.mk "dev/log" MKind.other ""] (FS.mk [])
    "dev/log" none false (by decide) (by decide) (by decide)

/-- Claim C4 (confirmed): a `src` ending in `/*` is classified as
globbed: the trailing `/*` is stripped to form the match target, and the
request goes straight to the newest-to-oldest layer scan with the globbed
flag set — the right-hand side does not depend on the caller-supplied
`force` and the idempotency skip can never fire, so globbed extraction
always re-extracts. -/
theorem C4_glob_classification (layers : List (List Member)) (fs : FS)
    (src : String) (dest : Option String) (force : Bool)
    (h : isGlobbed src = true) :
    extract_path layers fs src dest force =
      findExtract fs (stripGlob src) dest true layers.reverse := by
  simp [extract_path, h]

/-- Witness for C4 at a concrete globbed request. -/
theorem C4_glob_classification_witness :
    extract_path [] (FS.mk []) "usr/lib/*" none false =
      findExtract (FS.mk []) (stripGlob "usr/lib/*") none true [] :=
  C4_glob_classification [] (FS.mk []) "usr/lib/*" none false (by decide)

/-- Claim C5 (confirmed): glob prefix stripping and destination
rewriting, at the spec's concrete example.  The hit layer holds the
directory entry `usr/lib` (the exact-target lookup requires it) together
with the members `usr/lib/os-release` and `usr/lib/foo/bar`; with `dest =
"out"` an existing directory, the extracted paths are exactly
`out/os-release` and `out/foo/bar`: the prefix `usr/lib` plus the joining
separator (8 characters) is stripped from each member name before joining
with `dest`, and the matched directory itself is sliced off. -/
theorem C5_glob_rewrite_example :
    extract_path
        [[Member.mk "usr/lib" MKind.directory "",
          Member.mk "usr/lib/os-release" MKind.file "ID=rhel",
          Member.mk "usr/lib/foo/bar" MKind.file "bar-content"]]
        (FS.mk [("out", FSNode.dir)]) "usr/lib/*" (some "out") false =
      Except.ok (FS.mk [("out", FSNode.dir),
          ("out/os-release", FSNode.file "ID=rhel"),
          ("out/foo/bar", FSNode.file "bar-content")],
        ["out/os-release", "out/foo/bar"]) := rfl

/-- Claim C6 counterexample: the target "a" is absent from the single
layer of the image, yet the operation does NOT fail with the
path-not-found error: a stale regular file named "a" exists at the
computed destination, so with `force = false` the idempotency skip fires
before the layer scan and the request succeeds with no change. -/
theorem C6_counterexample :
    (∀ m ∈ [Member.mk "b" MKind.file "x"], m.name ≠ "a") ∧
    extract_path [[Member.mk "b" MKind.file "x"]]
        (FS.mk [("a", FSNode.file "stale")]) "a" none false =
      Except.ok (FS.mk [("a", FSNode.file "stale")], []) :=
  ⟨by decide, rfl⟩

/-- Claim C6 (amended): provided the request actually reaches the layer
scan — it is globbed, or `force` is set, or no regular file exists at the
computed destination — a target absent from every layer fails with the
path-not-found error after scanning all layers newest to oldest, and no
extraction at all is performed (the error result carries no filesystem
change by construction). -/
theorem C6_path_not_found (layers : List (List Member)) (fs : FS) (src : String)
    (dest : Option String) (force : Bool)
    (habsent : ∀ l ∈ layers, ∀ m ∈ l, m.name ≠ stripGlob src)
    (hreach : isGlobbed src = true ∨ force = true ∨
      destFileExists fs (stripGlob src) dest = false) :
    extract_path layers fs src dest force =
      Except.error (ExtractErr.pathNotFound (stripGlob src)) := by
  have hrev : ∀ l ∈ layers.reverse, ∀ m ∈ l, m.name ≠ stripGlob src := by
    intro l hl
    exact habsent l (List.mem_reverse.mp hl)
  have hfe := findExtract_no_hit fs (stripGlob src) dest (isGlobbed src)
    layers.reverse hrev
  cases hg : isGlobbed src
  · rcases hreach with h | h | h
    · rw [hg] at h
      exact absurd h (by simp)
    · rw [hg] at hfe
      simp [extract_path, hg, h, hfe]
    · rw [hg] at hfe
      simp [extract_path, hg, h, hfe]
  · rw [hg] at hfe
    simp [extract_path, hg, hfe]

/-- Witness for C6's amended theorem: an absent target with an empty
local filesystem. -/
theorem C6_path_not_found_witness :
    extract_path [[Member.mk "b" MKind.file "x"]] (FS.mk []) "a" none false =
      Except.error (ExtractErr.pathNotFound (stripGlob "a")) :=
  C6_path_not_found [[Member.mk "b" MKind.file "x"]] (FS.mk []) "a" none false
    (by decide) (by decide)

/-- Claim C7 counterexample, both mismatch directions.  First: the
destination path "a" exists as a regular file while the matched archive
member "a" is a directory — a kind mismatch the claim says must fail
with `DestinationTypeMismatch` — yet the `isfile` probe succeeds and the
request is SKIPPED (no error, no change), because the member's kind is
never consulted.  Second: the destination path "a" exists as a directory
while the member is a file; the probe is false, the request reaches the
extraction step, and `open(targetpath, "wb")` raises the is-a-directory
OS error, which aborts the request as a raw exception — not as any
`DestinationTypeMismatch` of the idempotency check (no such error exists
anywhere in the code). -/
theorem C7_counterexample :
    extract_path [[Member.mk "a" MKind.directory ""]]
        (FS.mk [("a", FSNode.file "x")]) "a" none false =
      Except.ok (FS.mk [("a", FSNode.file "x")], []) ∧
    extract_path [[Member.mk "a" MKind.file "X"]] (FS.mk [("a", FSNode.dir)])
        "a" none false =
      Except.error (ExtractErr.isADirectory "a") :=
  ⟨rfl, rfl⟩

/-- Claim C7 (amended): the idempotency check never compares kinds and no
`DestinationTypeMismatch` error exists.  For a non-globbed, non-force
request only the `isfile` probe at the computed destination decides:
a regular file there — even when the archive member is a directory —
makes the request skip as already satisfied, while a directory there
makes the probe false, so the check neither skips nor fails the request
and it proceeds straight to the layer scan, where writing a file member
onto that directory then fails with the raised is-a-directory OS error
rather than any dedicated mismatch error. -/
theorem C7_no_kind_mismatch_check (layers : List (List Member)) (fs : FS)
    (src : String) (dest : Option String) (hng : isGlobbed src = false) :
    ((∃ c, FS.lookup fs (computedDest fs src dest) = some (FSNode.file c)) →
      extract_path layers fs src dest false = Except.ok (fs, [])) ∧
    (FS.lookup fs (computedDest fs src dest) = some FSNode.dir →
      extract_path layers fs src dest false =
        findExtract fs src dest false layers.reverse) := by
  have hs : stripGlob src = src := by simp [stripGlob, hng]
  constructor
  · rintro ⟨c, hc⟩
    have hdfe : destFileExists fs src dest = true := by
      simp [destFileExists, isfile, hc]
    simp [extract_path, hng, hs, hdfe]
  · intro hc
    have hdfe : destFileExists fs src dest = false := by
      simp [destFileExists, isfile, hc]
    simp [extract_path, hng, hs, hdfe]

/-- Witness for C7's amended theorem: the file-at-destination mismatch is
skipped, the directory-at-destination mismatch goes to the layer scan. -/
theorem C7_no_kind_mismatch_check_witness :
    extract_path [[Member.mk "a" MKind.directory ""]]
        (FS.mk [("a", FSNode.file "x")]) "a" none false =
      Except.ok (FS.mk [("a", FSNode.file "x")], []) ∧
    extract_path [[Member.mk "a" MKind.file "X"]] (FS.mk [("a", FSNode.dir)])
        "a" none false =
      findExtract (FS.mk [("a", FSNode.dir)]) "a" none false
        [[Member.mk "a" MKind.file "X"]] :=
  ⟨(C7_no_kind_mismatch_check [[Member.mk "a" MKind.directory ""]]
      (FS.mk [("a", FSNode.file "x")]) "a" none (by decide)).1 ⟨"x", rfl⟩,
   (C7_no_kind_mismatch_check [[Member.mk "a" MKind.file "X"]]
      (FS.mk [("a", FSNode.dir)]) "a" none (by decide)).2 rfl⟩

/-- Claim C8 counterexample: a globbed request (`src = "foo/*"`) whose
destination "bar" is an existing plain file — which the claim says must
fail with `InvalidDestination` — succeeds with an empty extracted list,
because the hit entry "foo" is a symlink-kind member: it is filtered out
before the destination check is ever reached, leaving the matched set
empty. -/
theorem C8_counterexample :
    isdir (FS.mk [("bar", FSNode.file "x")]) "bar" = false ∧
    extract_path [[Member.mk "foo" MKind.other ""]]
        (FS.mk [("bar", FSNode.file "x")]) "foo/*" (some "bar") false =
      Except.ok (FS.mk [("bar", FSNode.file "x")], []) :=
  ⟨rfl, rfl⟩

/-- Claim C8 (amended): for a request that reaches the layer scan and
hits a layer, if the destination is given but is not an existing
directory, and the matched set contains a file-or-directory member that
triggers the check (any matched member when the request is globbed, a
directory member otherwise), the operation fails with the
invalid-destination error — and since the failure is raised inside
`dir_members`, before `extractall` runs, no member is extracted (the
error result carries no filesystem change). -/
theorem C8_invalid_destination (layer : List Member) (fs : FS) (src d : String)
    (force : Bool)
    (hhit : ∃ m ∈ layer, m.name = stripGlob src)
    (hnotdir : isdir fs d = false)
    (hmatched : ∃ m ∈ layer, matchesSrc (stripGlob src) m = true ∧
      (isGlobbed src = true ∨ m.isdir = true))
    (hreach : isGlobbed src = true ∨ force = true ∨
      destFileExists fs (stripGlob src) (some d) = false) :
    extract_path [layer] fs src (some d) force =
      Except.error (ExtractErr.invalidDestination d) := by
  have hdm : dir_members layer (stripGlob src) (some d) fs (isGlobbed src) =
      Except.error (ExtractErr.invalidDestination d) := by
    unfold dir_members
    rw [collectMembers_error (stripGlob src) d fs (isGlobbed src)
      (subpathLenOf (stripGlob src) (isGlobbed src)) hnotdir layer [] hmatched]
  have hfe : findExtract fs (stripGlob src) (some d) (isGlobbed src) [layer] =
      Except.error (ExtractErr.invalidDestination d) := by
    simp only [findExtract, any_name_eq_true_of hhit]
    simp [hdm]
  cases hg : isGlobbed src
  · rcases hreach with h | h | h
    · rw [hg] at h
      exact absurd h (by simp)
    · rw [hg] at hfe
      simp [extract_path, hg, h, hfe]
    · rw [hg] at hfe
      simp [extract_path, hg, h, hfe]
  · rw [hg] at hfe
    simp [extract_path, hg, hfe]

/-- Witness for C8's amended theorem: a globbed request with a real
directory member and a plain-file destination. -/
theorem C8_invalid_destination_witness :
    extract_path [[Member.mk "foo" MKind.directory "",
        Member.mk "foo/a" MKind.file "1"]]
      (FS.mk [("bar", FSNode.file "x")]) "foo/*" (some "bar") false =
      Except.error (ExtractErr.invalidDestination "bar") :=
  C8_invalid_destination [Member.mk "foo" MKind.directory "",
      Member.mk "foo/a" MKind.file "1"]
    (FS.mk [("bar", FSNode.file "x")]) "foo/*" "bar" false
    (by decide) (by decide) (by decide) (by decide)

/-- Claim C9 (confirmed): `set_ownership` resolves the symbolic owner and
group names before iterating the path list and never tests whether that
list is empty, so the outcome of a request whose extraction step
produced an empty path list (nothing extracted, no change) is decided
entirely by the two name resolutions: an unresolvable owner name fails
with the unknown-owner error, otherwise an unresolvable group name fails
with the unknown-group error, and only when both resolve (or are absent)
does the re-run succeed with no change. -/
theorem C9_resolution_decides_empty_rerun (layers : List (List Member))
    (db : IdDB) (fs fs' : FS) (src : String) (dest : Option String)
    (owner group : Option String) (force : Bool)
    (hex : extract_path layers fs src dest force = Except.ok (fs', [])) :
    process_path layers db fs src dest owner group force =
      (match resolveUid db owner with
       | Except.error e => Except.error e
       | Except.ok _ =>
         match resolveGid db group with
         | Except.error e => Except.error e
         | Except.ok _ => Except.ok (fs', ([] : List String))) := by
  rcases owner with _ | o <;> rcases group with _ | g
  · simp [process_path, hex, set_ownership, resolveUid, resolveGid]
  · simp only [process_path, hex, set_ownership, resolveUid]
    cases hg : resolveGid db (some g) <;> simp [hg]
  · simp only [process_path, hex, set_ownership, resolveGid]
    cases ho : resolveUid db (some o) <;> simp [ho]
  · simp only [process_path, hex, set_ownership]
    cases ho : resolveUid db (some o) <;>
      cases hg : resolveGid db (some g) <;> simp [ho, hg]

/-- Witness for C9: two skipped re-runs (file already present, empty
extracted list) against empty identity databases — the first fails on
the unknown owner name, the second on the unknown group name. -/
theorem C9_resolution_decides_empty_rerun_witness :
    process_path [[Member.mk "a" MKind.file "x"]] (IdDB.mk [] [])
        (FS.mk [("a", FSNode.file "x")]) "a" none (some "nouser") none false =
      Except.error (ExtractErr.unknownOwner "nouser") ∧
    process_path [[Member.mk "a" MKind.file "x"]] (IdDB.mk [] [])
        (FS.mk [("a", FSNode.file "x")]) "a" none none (some "nogroup") false =
      Except.error (ExtractErr.unknownGroup "nogroup") :=
  ⟨C9_resolution_decides_empty_rerun [[Member.mk "a" MKind.file "x"]]
      (IdDB.mk [] []) (FS.mk [("a", FSNode.file "x")])
      (FS.mk [("a", FSNode.file "x")]) "a" none (some "nouser") none false rfl,
   C9_resolution_decides_empty_rerun [[Member.mk "a" MKind.file "x"]]
      (IdDB.mk [] []) (FS.mk [("a", FSNode.file "x")])
      (FS.mk [("a", FSNode.file "x")]) "a" none none (some "nogroup") false rfl⟩

/-- Claim C10 (confirmed): for a globbed request that hits a layer (with
a valid destination, i.e. none or an existing directory), both the
extracted member set and the returned path list equal `globClaimList`:
the ordered matching file/directory members of that layer, rewritten to
their destinations, with the first element unconditionally removed.  In
particular, when the directory entry named by the stripped `src` is the
first matching member, the matched directory itself is neither extracted
nor reported — only its contents are. -/
theorem C10_glob_drops_first (layer : List Member) (fs : FS) (src : String)
    (dest : Option String) (force : Bool)
    (hglob : isGlobbed src = true)
    (hhit : ∃ m ∈ layer, m.name = stripGlob src)
    (hdest : dest = none ∨ ∃ d, dest = some d ∧ isdir fs d = true) :
    extract_path [layer] fs src dest force =
      (match extractAll fs (globClaimList layer (stripGlob src) dest fs) with
       | Except.error e => Except.error e
       | Except.ok fs' =>
         Except.ok (fs',
           (globClaimList layer (stripGlob src) dest fs).map Member.name)) := by
  have hdm := dir_members_ok_globbed layer (stripGlob src) dest fs hdest
  have hfe : findExtract fs (stripGlob src) dest true [layer] =
      (match extractAll fs (globClaimList layer (stripGlob src) dest fs) with
       | Except.error e => Except.error e
       | Except.ok fs' =>
         Except.ok (fs',
           (globClaimList layer (stripGlob src) dest fs).map Member.name)) := by
    simp only [findExtract, any_name_eq_true_of hhit]
    simp [hdm, globClaimList]
  simp [extract_path, hglob, hfe]

/-- Witness for C10: the matched directory `usr/lib` is itself the first
matching member and is dropped from both the extraction set and the
report. -/
theorem C10_glob_drops_first_witness :
    extract_path [[Member.mk "usr/lib" MKind.directory "",
        Member.mk "usr/lib/a" MKind.file "1"]] (FS.mk []) "usr/lib/*" none false =
      (match extractAll (FS.mk [])
          (globClaimList [Member.mk "usr/lib" MKind.directory "",
            Member.mk "usr/lib/a" MKind.file "1"] (stripGlob "usr/lib/*") none
            (FS.mk [])) with
       | Except.error e => Except.error e
       | Except.ok fs' =>
         Except.ok (fs',
           (globClaimList [Member.mk "usr/lib" MKind.directory "",
             Member.mk "usr/lib/a" MKind.file "1"] (stripGlob "usr/lib/*") none
             (FS.mk [])).map Member.name)) :=
  C10_glob_drops_first [Member.mk "usr/lib" MKind.directory "",
      Member.mk "usr/lib/a" MKind.file "1"] (FS.mk []) "usr/lib/*" none false
    (by decide) (by decide) (Or.inl rfl)

end ImageExtract
